import Mathlib

/-!
Verification of the Grove LED Bar (MY9221) MakeCode driver.

The driver (`src/main.ts`, namespace `groveLedBar`) bit-bangs the MY9221
protocol over two digital pins.  We embed it shallowly: the externally
observable behaviour of a call is the pair of the updated driver state and
the list of emitted pin events (digital writes and microsecond waits).
JavaScript numbers are modelled by `ℚ` (all arithmetic the driver performs
on them — `*8`, `-8`, comparisons, `Math.floor` — is exact on doubles in
the relevant range), array indices by `ℕ`, and the `| 0` coercion of
`setBits` by reduction modulo `2 ^ 32`.
-/

namespace groveLedBar

/-- One externally observable effect: `pins.digitalWritePin pin level`,
or `control.waitMicros us`. -/
inductive Event where
  | writePin (pin : Nat) (level : Nat)
  | wait (us : Nat)
deriving DecidableEq

/-- The module-level mutable state of the driver: `_inited`, `_clk`, `_dat`,
`_reverse` and the ten-element `_led` array. -/
structure DriverState where
  inited : Bool
  clk : Nat
  dat : Nat
  reverse : Bool
  led : List Nat
deriving DecidableEq

/-- `clamp(v, lo, hi)` from `src/main.ts` (polymorphic: the source applies it
to JavaScript numbers used both as reals and as integers). -/
def clamp {α : Type} [LinearOrder α] (v lo hi : α) : α :=
  if v < lo then lo
  else if v > hi then hi
  else v

/-- The loop body of `send16`: `n` remaining iterations, current (left
shifting) `word` and current `clkState`.  Each iteration writes the data pin
with bit 15 of the word, writes the clock pin with the alternating
`clkState`, then shifts the word left by one, masked to 16 bits. -/
def send16Go (clkPin datPin : Nat) : Nat → Nat → Nat → List Event
  | 0, _, _ => []
  | n + 1, word, clkState =>
    Event.writePin datPin (if word &&& 0x8000 ≠ 0 then 1 else 0) ::
    Event.writePin clkPin clkState ::
    send16Go clkPin datPin n ((word <<< 1) &&& 0xFFFF) (if clkState = 0 then 1 else 0)

/-- `send16(word)`: mask the argument to 16 bits and run the 16-iteration
serialization loop with the clock state starting at 0. -/
def send16 (clkPin datPin : Nat) (word : Nat) : List Event :=
  send16Go clkPin datPin 16 (word &&& 0xFFFF) 0

/-- `latch()`: the fixed frame-commit sequence of `src/main.ts` (data low,
four clock writes, 240 µs wait, the four-iteration data-toggle loop, 1 µs
wait, final clock pulse). -/
def latch (clkPin datPin : Nat) : List Event :=
  [Event.writePin datPin 0,
   Event.writePin clkPin 1, Event.writePin clkPin 0,
   Event.writePin clkPin 1, Event.writePin clkPin 0,
   Event.wait 240] ++
  (List.range 4).flatMap (fun _ => [Event.writePin datPin 1, Event.writePin datPin 0]) ++
  [Event.wait 1, Event.writePin clkPin 1, Event.writePin clkPin 0]

/-- `flush()`: no-op when uninitialized; otherwise send the command word
`0x0000`, the ten LED words (`_led[i] & 0xFF`, ascending indices normally,
descending when `_reverse`), two `0x0000` padding words, then `latch()`. -/
def flush (s : DriverState) : List Event :=
  if s.inited = true then
    send16 s.clk s.dat 0x0000 ++
    (if s.reverse = true then
       ((List.range 10).reverse).flatMap (fun i => send16 s.clk s.dat ((s.led.getD i 0) &&& 0xFF))
     else
       (List.range 10).flatMap (fun i => send16 s.clk s.dat ((s.led.getD i 0) &&& 0xFF))) ++
    send16 s.clk s.dat 0x0000 ++ send16 s.clk s.dat 0x0000 ++
    latch s.clk s.dat
  else []

/-- A loop `for i of is: acc[i] = f i`, used for the zeroing loops of `init`
and `clear` and for the loop of `setBits` (whose stored value depends only
on the index). -/
def storeGo (f : Nat → Nat) (acc : List Nat) : List Nat → List Nat
  | [] => acc
  | i :: rest => storeGo f (acc.set i (f i)) rest

/-- The per-segment value computed inside the loop of `setLevel` from the
running budget `x`: `0xFF` when `x >= 8`, the pattern
`(1 << clamp(Math.floor x, 0, 8)) - 1` when `0 < x < 8`, else `0`. -/
def ledValue (x : ℚ) : Nat :=
  if x ≥ 8 then 0xFF
  else if x > 0 then (1 <<< (clamp ⌊x⌋ 0 8).toNat) - 1
  else 0

/-- The loop of `setLevel`: for each index `i` in turn store
`ledValue x & 0xFF` into slot `i` and decrement the budget `x` by 8. -/
def setLevelGo (acc : List Nat) (x : ℚ) : List Nat → List Nat
  | [] => acc
  | i :: rest => setLevelGo (acc.set i (ledValue x &&& 0xFF)) (x - 8) rest

/-- `init(clockPin, dataPin, greenToRed)`: bind the pins and direction, set
`_inited`, drive both pins low, zero the ten LED slots, and flush. -/
def init (clockPin dataPin : Nat) (greenToRed : Bool) (s : DriverState) :
    DriverState × List Event :=
  let s1 : DriverState :=
    { inited := true, clk := clockPin, dat := dataPin, reverse := greenToRed,
      led := storeGo (fun _ => 0) s.led (List.range 10) }
  (s1, Event.writePin clockPin 0 :: Event.writePin dataPin 0 :: flush s1)

/-- `setGreenToRed(greenToRed)`: update `_reverse` and flush.  Note the
source has no `_inited` guard here; `flush` itself is guarded. -/
def setGreenToRed (greenToRed : Bool) (s : DriverState) : DriverState × List Event :=
  let s1 := { s with reverse := greenToRed }
  (s1, flush s1)

/-- `setLevel(level)`: guard on `_inited`, clamp the level to `[0, 10]`,
run the ten-iteration fill loop with budget `level * 8`, and flush. -/
def setLevel (level : ℚ) (s : DriverState) : DriverState × List Event :=
  if s.inited = true then
    let lv := clamp level 0 10
    let s1 := { s with led := setLevelGo s.led (lv * 8) (List.range 10) }
    (s1, flush s1)
  else (s, [])

/-- `setLed(index, brightness)`: guard on `_inited`, clamp the index to
`[1, 10]` and the brightness to `[0, 1]`, compute
`steps = clamp(Math.floor(brightness * 8), 0, 8)`, store the pattern
`(1 << steps) - 1` (0 when `steps = 0`) masked to a byte into slot
`index - 1`, and flush.  The index is an integer per the API contract. -/
def setLed (index : ℤ) (brightness : ℚ) (s : DriverState) : DriverState × List Event :=
  if s.inited = true then
    let idx := clamp index 1 10
    let b := clamp brightness 0 1
    let steps := clamp ⌊b * 8⌋ 0 8
    let v : Nat := if steps = 0 then 0 else (1 <<< steps.toNat) - 1
    let s1 := { s with led := s.led.set (idx - 1).toNat (v &&& 0xFF) }
    (s1, flush s1)
  else (s, [])

/-- `setBits(mask)`: guard on `_inited`, truncate the mask to 32 bits
(`mask | 0`; bits 0–9, the only ones read, agree with the unsigned residue
modulo `2 ^ 32`), then store `0xFF` or `0x00` per slot according to the
mask bit, and flush. -/
def setBits (mask : ℤ) (s : DriverState) : DriverState × List Event :=
  if s.inited = true then
    let m : Nat := (mask % (2 ^ 32 : ℤ)).toNat
    let s1 :=
      { s with led := storeGo (fun i => if m.testBit i then 0xFF else 0x00) s.led (List.range 10) }
    (s1, flush s1)
  else (s, [])

/-- `clear()`: guard on `_inited`, zero the ten LED slots, and flush. -/
def clear (s : DriverState) : DriverState × List Event :=
  if s.inited = true then
    let s1 := { s with led := storeGo (fun _ => 0) s.led (List.range 10) }
    (s1, flush s1)
  else (s, [])

/-- The module state at load time: `_inited = false`, `_reverse = false`,
`_led` all zero.  The pin variables are unassigned in the source until
`init`; they are modelled as 0 and are never read while uninitialized
(`flush` is guarded). -/
def initialState : DriverState :=
  { inited := false, clk := 0, dat := 0, reverse := false, led := List.replicate 10 0 }

/-- A call to one of the six public operations, with its arguments. -/
inductive Op where
  | opInit (clockPin dataPin : Nat) (greenToRed : Bool)
  | opSetGreenToRed (greenToRed : Bool)
  | opSetLevel (level : ℚ)
  | opSetLed (index : ℤ) (brightness : ℚ)
  | opSetBits (mask : ℤ)
  | opClear

/-- Apply one public operation to a driver state. -/
def applyOp : Op → DriverState → DriverState × List Event
  | .opInit cp dp g, s => init cp dp g s
  | .opSetGreenToRed g, s => setGreenToRed g s
  | .opSetLevel lv, s => setLevel lv s
  | .opSetLed i b, s => setLed i b s
  | .opSetBits m, s => setBits m s
  | .opClear, s => clear s

/-- Run a sequence of public operations, keeping only the state. -/
def runOps (s : DriverState) : List Op → DriverState
  | [] => s
  | op :: rest => runOps (applyOp op s).1 rest

/-- The nine pattern values the driver's quantization can produce:
`n` consecutive low bits set, `n = 0..8`. -/
def patternSet : List Nat := [0x00, 0x01, 0x03, 0x07, 0x0F, 0x1F, 0x3F, 0x7F, 0xFF]

/-- The brightness-state invariant: ten slots, each holding one of the
driver's quantization patterns. -/
def goodLed (l : List Nat) : Prop :=
  l.length = 10 ∧ ∀ v ∈ l, v ∈ patternSet

/-- The sequence of levels written to pin `p` by a list of events. -/
def writesTo (p : Nat) : List Event → List Nat
  | [] => []
  | Event.writePin q v :: es => if q = p then v :: writesTo p es else writesTo p es
  | Event.wait _ :: es => writesTo p es

/-- The number of delay calls in a list of events. -/
def waitCount : List Event → Nat
  | [] => 0
  | Event.writePin _ _ :: es => waitCount es
  | Event.wait _ :: es => 1 + waitCount es

/-- The number of rising (0 then 1) edges in a sequence of written levels. -/
def risingEdges : List Nat → Nat
  | [] => 0
  | [_] => 0
  | a :: b :: rest => (if a = 0 ∧ b = 1 then 1 else 0) + risingEdges (b :: rest)

/-- Spec-side description of the ten data words of a frame: each brightness
value masked to its low 8 bits, in logical order. -/
def dataWords (s : DriverState) : List Nat := s.led.map (fun v => v &&& 0xFF)

/-- Spec-side description of the twelve-word MY9221 frame: the command word
`0x0000`, the ten data words (reversed under the reversed direction), and
two `0x0000` padding words. -/
def frameWords (s : DriverState) : List Nat :=
  0 :: ((if s.reverse = true then (dataWords s).reverse else dataWords s) ++ [0, 0])

/-! ### Helper lemmas about the serialization loop -/

theorem send16Go_writesTo_dat (clkPin datPin : Nat) (hcd : clkPin ≠ datPin) :
    ∀ n : Nat, n ≤ 16 → ∀ w k : Nat, w < 65536 →
      writesTo datPin (send16Go clkPin datPin n w k) =
        (List.range n).map (fun j => if w.testBit (15 - j) then 1 else 0) := by
  intro n
  induction n with
  | zero => intro _ w k _; simp [send16Go, writesTo]
  | succ n ih =>
    intro hn w k hw
    have hn' : n ≤ 16 := by omega
    have hmask : (0xFFFF : Nat) = 2 ^ 16 - 1 := by norm_num
    have hw' : (w <<< 1) &&& 0xFFFF < 65536 := by
      rw [hmask, Nat.and_pow_two_sub_one_eq_mod]
      exact Nat.mod_lt _ (by norm_num)
    rw [send16Go, List.range_succ_eq_map, List.map_cons, List.map_map]
    have hbit :
        (if w &&& 0x8000 ≠ 0 then (1 : Nat) else 0) = if w.testBit 15 then 1 else 0 := by
      have h15 : (0x8000 : Nat) = 2 ^ 15 := by norm_num
      rw [h15, Nat.and_two_pow]
      cases hb : w.testBit 15 <;> simp [hb]
    have hstep :
        writesTo datPin
            (Event.writePin datPin (if w &&& 0x8000 ≠ 0 then 1 else 0) ::
              Event.writePin clkPin k ::
              send16Go clkPin datPin n ((w <<< 1) &&& 0xFFFF) (if k = 0 then 1 else 0)) =
          (if w &&& 0x8000 ≠ 0 then 1 else 0) ::
            writesTo datPin (send16Go clkPin datPin n ((w <<< 1) &&& 0xFFFF)
              (if k = 0 then 1 else 0)) := by
      simp [writesTo, hcd, Ne.symm hcd]
    rw [hstep, hbit, ih hn' _ _ hw']
    congr 1
    apply List.map_congr_left
    intro j hj
    have hjn : j < n := List.mem_range.mp hj
    have hj14 : j ≤ 14 := by omega
    have h1 : ((w <<< 1) &&& 0xFFFF).testBit (15 - j) = w.testBit (15 - (j + 1)) := by
      rw [hmask, Nat.and_pow_two_sub_one_eq_mod, Nat.testBit_mod_two_pow,
        Nat.testBit_shiftLeft]
      have h2 : 15 - j < 16 := by omega
      have h3 : 1 ≤ 15 - j := by omega
      have h4 : 15 - j - 1 = 15 - (j + 1) := by omega
      simp [h2, h3, h4]
    simp [Function.comp, h1]

theorem send16Go_writesTo_clk (clkPin datPin : Nat) (hcd : clkPin ≠ datPin) :
    ∀ n : Nat, ∀ w k : Nat, k ≤ 1 →
      writesTo clkPin (send16Go clkPin datPin n w k) =
        (List.range n).map (fun j => (k + j) % 2) := by
  intro n
  induction n with
  | zero => intro w k _; simp [send16Go, writesTo]
  | succ n ih =>
    intro w k hk
    have hk' : (if k = 0 then (1 : Nat) else 0) ≤ 1 := by split <;> omega
    rw [send16Go, List.range_succ_eq_map, List.map_cons, List.map_map]
    have hstep :
        writesTo clkPin
            (Event.writePin datPin (if w &&& 0x8000 ≠ 0 then 1 else 0) ::
              Event.writePin clkPin k ::
              send16Go clkPin datPin n ((w <<< 1) &&& 0xFFFF) (if k = 0 then 1 else 0)) =
          k :: writesTo clkPin (send16Go clkPin datPin n ((w <<< 1) &&& 0xFFFF)
            (if k = 0 then 1 else 0)) := by
      simp [writesTo, hcd, Ne.symm hcd]
    rw [hstep, ih _ _ hk']
    have hk0 : (k + 0) % 2 = k := by omega
    rw [hk0]
    congr 1
    apply List.map_congr_left
    intro j _
    have hk2 : k = 0 ∨ k = 1 := by omega
    rcases hk2 with rfl | rfl <;> simp [Function.comp] <;> omega

/-! ### Helper lemmas about lists, `clamp` and the pattern values -/

theorem exists_len_ten (l : List Nat) (h : l.length = 10) :
    ∃ a0 a1 a2 a3 a4 a5 a6 a7 a8 a9,
      l = [a0, a1, a2, a3, a4, a5, a6, a7, a8, a9] := by
  rcases l with _ | ⟨a0, l⟩
  · simp at h
  rcases l with _ | ⟨a1, l⟩
  · simp at h
  rcases l with _ | ⟨a2, l⟩
  · simp at h
  rcases l with _ | ⟨a3, l⟩
  · simp at h
  rcases l with _ | ⟨a4, l⟩
  · simp at h
  rcases l with _ | ⟨a5, l⟩
  · simp at h
  rcases l with _ | ⟨a6, l⟩
  · simp at h
  rcases l with _ | ⟨a7, l⟩
  · simp at h
  rcases l with _ | ⟨a8, l⟩
  · simp at h
  rcases l with _ | ⟨a9, l⟩
  · simp at h
  rcases l with _ | ⟨a10, l⟩
  · exact ⟨a0, a1, a2, a3, a4, a5, a6, a7, a8, a9, rfl⟩
  · simp only [List.length_cons, List.length_nil] at h
    omega

theorem clamp_eq_self {α : Type} [LinearOrder α] {v lo hi : α}
    (h1 : lo ≤ v) (h2 : v ≤ hi) : clamp v lo hi = v := by
  unfold clamp
  rw [if_neg (not_lt.mpr h1), if_neg (not_lt.mpr h2)]

theorem le_clamp {α : Type} [LinearOrder α] (v : α) {lo hi : α}
    (h : lo ≤ hi) : lo ≤ clamp v lo hi := by
  unfold clamp
  split_ifs with h1 h2
  · exact le_refl lo
  · exact h
  · exact le_of_not_lt h1

theorem clamp_le {α : Type} [LinearOrder α] (v : α) {lo hi : α}
    (h : lo ≤ hi) : clamp v lo hi ≤ hi := by
  unfold clamp
  split_ifs with h1 h2
  · exact h
  · exact le_refl hi
  · exact le_of_not_lt h2

theorem patternVal_mem (n : Nat) (h : n ≤ 8) : ((1 <<< n) - 1) &&& 0xFF ∈ patternSet := by
  interval_cases n <;> decide

theorem patternVal_and (n : Nat) (h : n ≤ 8) : ((1 <<< n) - 1) &&& 0xFF = (1 <<< n) - 1 := by
  interval_cases n <;> decide

theorem patternSet_le {v : Nat} (h : v ∈ patternSet) : v ≤ 255 := by
  simp only [patternSet, List.mem_cons, List.not_mem_nil, or_false] at h
  rcases h with rfl | rfl | rfl | rfl | rfl | rfl | rfl | rfl | rfl <;> decide

theorem ledValue_and_mem (x : ℚ) : ledValue x &&& 0xFF ∈ patternSet := by
  unfold ledValue
  split_ifs with h1 h2
  · decide
  · have h08 : (0 : ℤ) ≤ 8 := by norm_num
    have hle : clamp ⌊x⌋ 0 8 ≤ 8 := clamp_le _ h08
    have hge : (0 : ℤ) ≤ clamp ⌊x⌋ 0 8 := le_clamp _ h08
    exact patternVal_mem _ (by omega)
  · decide

theorem storeGo_length (f : Nat → Nat) :
    ∀ is acc : List Nat, (storeGo f acc is).length = acc.length := by
  intro is
  induction is with
  | nil => intro acc; rfl
  | cons i rest ih => intro acc; rw [storeGo, ih, List.length_set]

theorem mem_storeGo (f : Nat → Nat) :
    ∀ (is acc : List Nat) (v : Nat), v ∈ storeGo f acc is → v ∈ acc ∨ ∃ i, v = f i := by
  intro is
  induction is with
  | nil => intro acc v hv; exact Or.inl hv
  | cons i rest ih =>
    intro acc v hv
    rcases ih _ _ hv with h | h
    · rcases List.mem_or_eq_of_mem_set h with h' | h'
      · exact Or.inl h'
      · exact Or.inr ⟨i, h'⟩
    · exact h.elim fun i hi => Or.inr ⟨i, hi⟩

theorem storeGo_ten (f : Nat → Nat) (a0 a1 a2 a3 a4 a5 a6 a7 a8 a9 : Nat) :
    storeGo f [a0, a1, a2, a3, a4, a5, a6, a7, a8, a9] (List.range 10) =
      [f 0, f 1, f 2, f 3, f 4, f 5, f 6, f 7, f 8, f 9] := rfl

theorem setLevelGo_length :
    ∀ (is acc : List Nat) (x : ℚ), (setLevelGo acc x is).length = acc.length := by
  intro is
  induction is with
  | nil => intro acc x; rfl
  | cons i rest ih => intro acc x; rw [setLevelGo, ih, List.length_set]

theorem mem_setLevelGo :
    ∀ (is acc : List Nat) (x : ℚ) (v : Nat),
      v ∈ setLevelGo acc x is → v ∈ acc ∨ ∃ y : ℚ, v = ledValue y &&& 0xFF := by
  intro is
  induction is with
  | nil => intro acc x v hv; exact Or.inl hv
  | cons i rest ih =>
    intro acc x v hv
    rcases ih _ _ _ hv with h | h
    · rcases List.mem_or_eq_of_mem_set h with h' | h'
      · exact Or.inl h'
      · exact Or.inr ⟨x, h'⟩
    · exact h.elim fun y hy => Or.inr ⟨y, hy⟩

theorem setLevelGo_ten (a0 a1 a2 a3 a4 a5 a6 a7 a8 a9 : Nat) (x : ℚ) :
    setLevelGo [a0, a1, a2, a3, a4, a5, a6, a7, a8, a9] x (List.range 10) =
      [ledValue x &&& 0xFF,
       ledValue (x - 8) &&& 0xFF,
       ledValue (x - 8 - 8) &&& 0xFF,
       ledValue (x - 8 - 8 - 8) &&& 0xFF,
       ledValue (x - 8 - 8 - 8 - 8) &&& 0xFF,
       ledValue (x - 8 - 8 - 8 - 8 - 8) &&& 0xFF,
       ledValue (x - 8 - 8 - 8 - 8 - 8 - 8) &&& 0xFF,
       ledValue (x - 8 - 8 - 8 - 8 - 8 - 8 - 8) &&& 0xFF,
       ledValue (x - 8 - 8 - 8 - 8 - 8 - 8 - 8 - 8) &&& 0xFF,
       ledValue (x - 8 - 8 - 8 - 8 - 8 - 8 - 8 - 8 - 8) &&& 0xFF] := rfl

/-! ### Claims about `send16` and `latch` -/

/-- Claim C3: a single `send16` call performs exactly 16 clock-pin writes
(the spec's "16 clock transitions") and exactly 16 data-pin writes, and the
data levels written are the 16 bits of the input word, most significant
first. -/
theorem claim3_send16_bits (clkPin datPin w : Nat) (hcd : clkPin ≠ datPin)
    (hw : w < 65536) :
    (writesTo clkPin (send16 clkPin datPin w)).length = 16 ∧
    (writesTo datPin (send16 clkPin datPin w)).length = 16 ∧
    writesTo datPin (send16 clkPin datPin w) =
      (List.range 16).map (fun j => if w.testBit (15 - j) then 1 else 0) := by
  have hmask : w &&& 0xFFFF = w := by
    have h16 : (0xFFFF : Nat) = 2 ^ 16 - 1 := by norm_num
    rw [h16]
    exact Nat.and_pow_two_sub_one_of_lt_two_pow hw
  have hdat := send16Go_writesTo_dat clkPin datPin hcd 16 (by omega) (w &&& 0xFFFF) 0
    (by rw [hmask]; exact hw)
  have hclk := send16Go_writesTo_clk clkPin datPin hcd 16 (w &&& 0xFFFF) 0 (by omega)
  rw [hmask] at hdat hclk
  refine ⟨?_, ?_, ?_⟩
  · rw [send16, hmask, hclk]; simp
  · rw [send16, hmask, hdat]; simp
  · rw [send16, hmask, hdat]

/-- Witness for claim C3 at clock pin 0, data pin 1, word `0xBEEF`. -/
theorem claim3_witness :
    (writesTo 0 (send16 0 1 0xBEEF)).length = 16 ∧
    (writesTo 1 (send16 0 1 0xBEEF)).length = 16 ∧
    writesTo 1 (send16 0 1 0xBEEF) =
      (List.range 16).map (fun j => if (0xBEEF : Nat).testBit (15 - j) then 1 else 0) :=
  claim3_send16_bits 0 1 0xBEEF (by decide) (by decide)

/-- Claim C4: for every word, `send16` writes the clock pin exactly 16 times
with strictly alternating levels beginning at 0, hence exactly 8 rising
edges in the written sequence, and the last level written is 1. -/
theorem claim4_send16_clock (clkPin datPin w : Nat) (hcd : clkPin ≠ datPin) :
    writesTo clkPin (send16 clkPin datPin w) =
      [0, 1, 0, 1, 0, 1, 0, 1, 0, 1, 0, 1, 0, 1, 0, 1] ∧
    risingEdges (writesTo clkPin (send16 clkPin datPin w)) = 8 ∧
    (writesTo clkPin (send16 clkPin datPin w)).getLast? = some 1 := by
  have hclk := send16Go_writesTo_clk clkPin datPin hcd 16 (w &&& 0xFFFF) 0 (by omega)
  have hlist : (List.range 16).map (fun j => (0 + j) % 2) =
      [0, 1, 0, 1, 0, 1, 0, 1, 0, 1, 0, 1, 0, 1, 0, 1] := by decide
  rw [send16, hclk, hlist]
  exact ⟨rfl, by decide, by decide⟩

/-- Witness for claim C4 at clock pin 0, data pin 1, word 12345. -/
theorem claim4_witness :
    writesTo 0 (send16 0 1 12345) =
      [0, 1, 0, 1, 0, 1, 0, 1, 0, 1, 0, 1, 0, 1, 0, 1] ∧
    risingEdges (writesTo 0 (send16 0 1 12345)) = 8 ∧
    (writesTo 0 (send16 0 1 12345)).getLast? = some 1 :=
  claim4_send16_clock 0 1 12345 (by decide)

/-- Claim C5: every `latch` call emits exactly the fixed sequence: DATA low;
CLOCK high, low, high, low; wait 240 µs; DATA toggled high-then-low four
times; wait 1 µs; CLOCK high then low. -/
theorem claim5_latch_sequence (clkPin datPin : Nat) :
    latch clkPin datPin =
      [Event.writePin datPin 0,
       Event.writePin clkPin 1, Event.writePin clkPin 0,
       Event.writePin clkPin 1, Event.writePin clkPin 0,
       Event.wait 240,
       Event.writePin datPin 1, Event.writePin datPin 0,
       Event.writePin datPin 1, Event.writePin datPin 0,
       Event.writePin datPin 1, Event.writePin datPin 0,
       Event.writePin datPin 1, Event.writePin datPin 0,
       Event.wait 1,
       Event.writePin clkPin 1, Event.writePin clkPin 0] := rfl

/-! ### Claims about the brightness setters -/

/-- Claim C6: after init, `setLevel 0` leaves all ten slots `0x00`,
`setLevel 10` leaves all ten slots `0xFF`, and `setLevel 3.5` leaves slots
0–2 at `0xFF`, slot 3 at `0x0F` and slots 4–9 at `0x00`. -/
theorem claim6_setLevel_values (s : DriverState) (h : s.inited = true)
    (hlen : s.led.length = 10) :
    (setLevel 0 s).1.led = List.replicate 10 0x00 ∧
    (setLevel 10 s).1.led = List.replicate 10 0xFF ∧
    (setLevel (7 / 2) s).1.led = [0xFF, 0xFF, 0xFF, 0x0F, 0, 0, 0, 0, 0, 0] := by
  obtain ⟨a0, a1, a2, a3, a4, a5, a6, a7, a8, a9, hled⟩ := exists_len_ten s.led hlen
  refine ⟨?_, ?_, ?_⟩ <;>
    · simp only [setLevel, h, if_true, hled, setLevelGo_ten]
      norm_num [ledValue, clamp, List.replicate_succ]
      try decide

/-- Witness for claim C6 at the state produced by `init 1 2 false`. -/
theorem claim6_witness :
    (init 1 2 false initialState).1.inited = true ∧
    (init 1 2 false initialState).1.led.length = 10 ∧
    ((setLevel 0 (init 1 2 false initialState).1).1.led = List.replicate 10 0x00 ∧
     (setLevel 10 (init 1 2 false initialState).1).1.led = List.replicate 10 0xFF ∧
     (setLevel (7 / 2) (init 1 2 false initialState).1).1.led =
       [0xFF, 0xFF, 0xFF, 0x0F, 0, 0, 0, 0, 0, 0]) :=
  ⟨rfl, rfl, claim6_setLevel_values _ rfl rfl⟩

/-- Bits 0–31 of the 32-bit truncation of a nonnegative integer agree with
the bits of the integer itself. -/
theorem int32_testBit (mask : ℤ) (hm : 0 ≤ mask) (i : Nat) (hi : i < 32) :
    ((mask % (2 ^ 32 : ℤ)).toNat).testBit i = mask.toNat.testBit i := by
  lift mask to ℕ using hm with n
  have hcast : ((n : ℤ) % (2 ^ 32 : ℤ)) = ((n % 2 ^ 32 : ℕ) : ℤ) := by
    push_cast
    rfl
  rw [hcast, Int.toNat_natCast, Int.toNat_natCast, Nat.testBit_mod_two_pow]
  simp [hi]

/-- Claim C8: after init, `setBits mask` sets slot `i` to `0xFF` exactly
when bit `i` of the mask is set, else `0x00`; in particular
`setBits 0b0000000101` lights slots 0 and 2 only. -/
theorem claim8_setBits (s : DriverState) (mask : ℤ) (h : s.inited = true)
    (hlen : s.led.length = 10) (hm : 0 ≤ mask) :
    (setBits mask s).1.led =
      (List.range 10).map (fun i => if mask.toNat.testBit i then 0xFF else 0x00) ∧
    (setBits 5 s).1.led = [0xFF, 0x00, 0xFF, 0x00, 0x00, 0x00, 0x00, 0x00, 0x00, 0x00] := by
  obtain ⟨a0, a1, a2, a3, a4, a5, a6, a7, a8, a9, hled⟩ := exists_len_ten s.led hlen
  constructor
  · simp only [setBits, h, if_true, hled, storeGo_ten]
    have hmap : (List.range 10).map (fun i => if mask.toNat.testBit i then (0xFF : Nat) else 0x00) =
        [if mask.toNat.testBit 0 then 0xFF else 0x00,
         if mask.toNat.testBit 1 then 0xFF else 0x00,
         if mask.toNat.testBit 2 then 0xFF else 0x00,
         if mask.toNat.testBit 3 then 0xFF else 0x00,
         if mask.toNat.testBit 4 then 0xFF else 0x00,
         if mask.toNat.testBit 5 then 0xFF else 0x00,
         if mask.toNat.testBit 6 then 0xFF else 0x00,
         if mask.toNat.testBit 7 then 0xFF else 0x00,
         if mask.toNat.testBit 8 then 0xFF else 0x00,
         if mask.toNat.testBit 9 then 0xFF else 0x00] := rfl
    rw [hmap,
      int32_testBit mask hm 0 (by norm_num), int32_testBit mask hm 1 (by norm_num),
      int32_testBit mask hm 2 (by norm_num), int32_testBit mask hm 3 (by norm_num),
      int32_testBit mask hm 4 (by norm_num), int32_testBit mask hm 5 (by norm_num),
      int32_testBit mask hm 6 (by norm_num), int32_testBit mask hm 7 (by norm_num),
      int32_testBit mask hm 8 (by norm_num), int32_testBit mask hm 9 (by norm_num)]
  · simp only [setBits, h, if_true, hled, storeGo_ten]
    decide

/-- Witness for claim C8 at the state produced by `init 1 2 false` with
mask `0b1100000011`. -/
theorem claim8_witness :
    (init 1 2 false initialState).1.inited = true ∧
    (init 1 2 false initialState).1.led.length = 10 ∧
    (0 : ℤ) ≤ 0b1100000011 ∧
    ((setBits 0b1100000011 (init 1 2 false initialState).1).1.led =
      (List.range 10).map
        (fun i => if (0b1100000011 : ℤ).toNat.testBit i then 0xFF else 0x00) ∧
     (setBits 5 (init 1 2 false initialState).1).1.led =
       [0xFF, 0x00, 0xFF, 0x00, 0x00, 0x00, 0x00, 0x00, 0x00, 0x00]) :=
  ⟨rfl, rfl, by norm_num, claim8_setBits _ 0b1100000011 rfl rfl (by norm_num)⟩

/-- Claim C9: after init, `setLed index brightness` rewrites exactly the slot
`(clamped index) - 1` with the pattern for `floor (clamped brightness * 8)`
and leaves every other slot and the direction flag unchanged. -/
theorem claim9_setLed (index : ℤ) (brightness : ℚ) (s : DriverState)
    (h : s.inited = true) :
    (setLed index brightness s).1.led =
      s.led.set (clamp index 1 10 - 1).toNat
        (if ⌊clamp brightness 0 1 * 8⌋ = 0 then 0
         else (1 <<< (⌊clamp brightness 0 1 * 8⌋).toNat) - 1) ∧
    (setLed index brightness s).1.reverse = s.reverse ∧
    ∀ k : Nat, k ≠ (clamp index 1 10 - 1).toNat →
      ((setLed index brightness s).1.led).getD k 0 = s.led.getD k 0 := by
  have hb0 : (0 : ℚ) ≤ clamp brightness 0 1 := le_clamp _ (by norm_num)
  have hb1 : clamp brightness 0 1 ≤ 1 := clamp_le _ (by norm_num)
  have hf0 : (0 : ℤ) ≤ ⌊clamp brightness 0 1 * 8⌋ :=
    Int.floor_nonneg.mpr (by nlinarith)
  have hf8 : ⌊clamp brightness 0 1 * 8⌋ ≤ 8 := by
    have hx : clamp brightness 0 1 * 8 ≤ 8 := by nlinarith
    have h2 := Int.floor_le_floor hx
    simpa using h2
  have hsteps : clamp ⌊clamp brightness 0 1 * 8⌋ 0 8 = ⌊clamp brightness 0 1 * 8⌋ :=
    clamp_eq_self hf0 hf8
  have hv : (if clamp ⌊clamp brightness 0 1 * 8⌋ 0 8 = 0 then (0 : Nat)
        else (1 <<< (clamp ⌊clamp brightness 0 1 * 8⌋ 0 8).toNat) - 1) &&& 0xFF =
      if ⌊clamp brightness 0 1 * 8⌋ = 0 then 0
      else (1 <<< (⌊clamp brightness 0 1 * 8⌋).toNat) - 1 := by
    rw [hsteps]
    split_ifs
    · decide
    · exact patternVal_and _ (by omega)
  have hmain : (setLed index brightness s).1.led =
      s.led.set (clamp index 1 10 - 1).toNat
        (if ⌊clamp brightness 0 1 * 8⌋ = 0 then 0
         else (1 <<< (⌊clamp brightness 0 1 * 8⌋).toNat) - 1) := by
    simp only [setLed, h, if_true]
    rw [hv]
  refine ⟨hmain, ?_, ?_⟩
  · simp only [setLed, h, if_true]
  · intro k hk
    rw [hmain]
    simp only [List.getD_eq_getElem?_getD]
    rw [List.getElem?_set_ne (Ne.symm hk)]

/-- Witness for claim C9 at the state produced by `init 1 2 false`, index 3,
brightness 1/2. -/
theorem claim9_witness :
    (init 1 2 false initialState).1.inited = true ∧
    ((setLed 3 (1 / 2) (init 1 2 false initialState).1).1.led =
      (init 1 2 false initialState).1.led.set (clamp (3 : ℤ) 1 10 - 1).toNat
        (if ⌊clamp (1 / 2 : ℚ) 0 1 * 8⌋ = 0 then 0
         else (1 <<< (⌊clamp (1 / 2 : ℚ) 0 1 * 8⌋).toNat) - 1) ∧
     (setLed 3 (1 / 2) (init 1 2 false initialState).1).1.reverse =
       (init 1 2 false initialState).1.reverse ∧
     ∀ k : Nat, k ≠ (clamp (3 : ℤ) 1 10 - 1).toNat →
       ((setLed 3 (1 / 2) (init 1 2 false initialState).1).1.led).getD k 0 =
         (init 1 2 false initialState).1.led.getD k 0) :=
  ⟨rfl, claim9_setLed 3 (1 / 2) _ rfl⟩

/-- Claim C10: after init, `setLevel` at a level outside `[0, 10]` produces
exactly the same state and the same event trace as `setLevel` at the nearest
bound. -/
theorem claim10_setLevel_clamped (level : ℚ) (s : DriverState)
    (h : s.inited = true) :
    (level < 0 → setLevel level s = setLevel 0 s) ∧
    (10 < level → setLevel level s = setLevel 10 s) := by
  constructor
  · intro hlt
    have hc : clamp level (0 : ℚ) 10 = 0 := by
      unfold clamp
      rw [if_pos hlt]
    have hc0 : clamp (0 : ℚ) 0 10 = 0 := clamp_eq_self (le_refl 0) (by norm_num)
    simp only [setLevel, h, if_true, hc, hc0]
  · intro hgt
    have hc : clamp level (0 : ℚ) 10 = 10 := by
      unfold clamp
      rw [if_neg (not_lt.mpr (by linarith)), if_pos hgt]
    have hc10 : clamp (10 : ℚ) 0 10 = 10 := clamp_eq_self (by norm_num) (le_refl 10)
    simp only [setLevel, h, if_true, hc, hc10]

/-- Witness for claim C10 at the state produced by `init 1 2 false`, levels
−1 and 11. -/
theorem claim10_witness :
    (init 1 2 false initialState).1.inited = true ∧
    setLevel (-1) (init 1 2 false initialState).1 =
      setLevel 0 (init 1 2 false initialState).1 ∧
    setLevel 11 (init 1 2 false initialState).1 =
      setLevel 10 (init 1 2 false initialState).1 :=
  ⟨rfl, (claim10_setLevel_clamped (-1) _ rfl).1 (by norm_num),
    (claim10_setLevel_clamped 11 _ rfl).2 (by norm_num)⟩

/-! ### Claim C2: behaviour before `init` -/

/-- Counterexample to claim C2 as stated: `setGreenToRed` invoked before any
`init` does change driver state — it flips the direction flag (the source
lacks the `_inited` guard in `setGreenToRed`), so not every pre-init call
leaves all driver state unchanged. -/
theorem claim2_counterexample :
    initialState.inited = false ∧
    initialState.reverse = false ∧
    (setGreenToRed true initialState).1.reverse = true :=
  ⟨rfl, rfl, rfl⟩

/-- Claim C2 (amended): before `init`, `setLevel`, `setLed`, `setBits` and
`clear` are complete no-ops (state unchanged, zero pin writes, zero delay
calls); `setGreenToRed` also performs zero pin writes and zero delay calls
and leaves the brightness state, pin configuration and init flag unchanged,
but it does update the direction flag. -/
theorem claim2_amended (s : DriverState) (h : s.inited = false)
    (lv : ℚ) (idx : ℤ) (b : ℚ) (m : ℤ) (g : Bool) :
    setLevel lv s = (s, []) ∧
    setLed idx b s = (s, []) ∧
    setBits m s = (s, []) ∧
    clear s = (s, []) ∧
    setGreenToRed g s = ({ s with reverse := g }, []) := by
  have h' : ¬s.inited = true := by simp [h]
  refine ⟨?_, ?_, ?_, ?_, ?_⟩
  · simp only [setLevel, if_neg h']
  · simp only [setLed, if_neg h']
  · simp only [setBits, if_neg h']
  · simp only [clear, if_neg h']
  · simp [setGreenToRed, flush, h]

/-- Witness for claim C2 (amended) at the pristine module state. -/
theorem claim2_witness :
    initialState.inited = false ∧
    (setLevel 5 initialState = (initialState, []) ∧
     setLed 3 (1 / 2) initialState = (initialState, []) ∧
     setBits 5 initialState = (initialState, []) ∧
     clear initialState = (initialState, []) ∧
     setGreenToRed true initialState = ({ initialState with reverse := true }, [])) :=
  ⟨rfl, claim2_amended initialState rfl 5 3 (1 / 2) 5 true⟩

/-! ### Claim C7: the quantization invariant -/

theorem goodLed_storeGo (f : Nat → Nat) (hf : ∀ i, f i ∈ patternSet)
    (l : List Nat) (hg : goodLed l) : goodLed (storeGo f l (List.range 10)) := by
  constructor
  · rw [storeGo_length]
    exact hg.1
  · intro v hv
    rcases mem_storeGo f _ _ _ hv with h | ⟨i, rfl⟩
    · exact hg.2 v h
    · exact hf i

theorem applyOp_goodLed (op : Op) (s : DriverState) (hg : goodLed s.led) :
    goodLed ((applyOp op s).1).led := by
  cases op with
  | opInit cp dp g =>
    show goodLed (storeGo (fun _ => 0) s.led (List.range 10))
    exact goodLed_storeGo _ (fun _ => by decide) _ hg
  | opSetGreenToRed g => exact hg
  | opSetLevel lv =>
    by_cases h : s.inited = true
    · simp only [applyOp, setLevel, h, if_true]
      refine ⟨?_, ?_⟩
      · rw [setLevelGo_length]
        exact hg.1
      · intro v hv
        rcases mem_setLevelGo _ _ _ _ hv with h' | ⟨y, rfl⟩
        · exact hg.2 v h'
        · exact ledValue_and_mem y
    · simp only [applyOp, setLevel, if_neg h]
      exact hg
  | opSetLed idx b =>
    by_cases h : s.inited = true
    · simp only [applyOp, setLed, h, if_true]
      refine ⟨?_, ?_⟩
      · rw [List.length_set]
        exact hg.1
      · intro v hv
        rcases List.mem_or_eq_of_mem_set hv with h' | rfl
        · exact hg.2 v h'
        · have h0 : (0 : ℤ) ≤ clamp ⌊clamp b 0 1 * 8⌋ 0 8 := le_clamp _ (by norm_num)
          have h8 : clamp ⌊clamp b 0 1 * 8⌋ 0 8 ≤ 8 := clamp_le _ (by norm_num)
          split_ifs
          · decide
          · exact patternVal_mem _ (by omega)
    · simp only [applyOp, setLed, if_neg h]
      exact hg
  | opSetBits m =>
    by_cases h : s.inited = true
    · simp only [applyOp, setBits, h, if_true]
      refine goodLed_storeGo _ (fun i => ?_) _ hg
      split_ifs <;> decide
    · simp only [applyOp, setBits, if_neg h]
      exact hg
  | opClear =>
    by_cases h : s.inited = true
    · simp only [applyOp, clear, h, if_true]
      exact goodLed_storeGo _ (fun _ => by decide) _ hg
    · simp only [applyOp, clear, if_neg h]
      exact hg

theorem runOps_goodLed :
    ∀ (ops : List Op) (s : DriverState), goodLed s.led → goodLed (runOps s ops).led := by
  intro ops
  induction ops with
  | nil => intro s h; exact h
  | cons op rest ih => intro s h; exact ih _ (applyOp_goodLed op s h)

/-- Claim C7: starting from the state established by `init`, every sequence
of public operations preserves the invariant that each of the ten brightness
values is one of the quantization patterns `{0x00, 0x01, 0x03, 0x07, 0x0F,
0x1F, 0x3F, 0x7F, 0xFF}`, and hence lies in `[0, 255]`. -/
theorem claim7_invariant (clockPin dataPin : Nat) (g : Bool) (ops : List Op) :
    goodLed (runOps (init clockPin dataPin g initialState).1 ops).led ∧
    ∀ v ∈ (runOps (init clockPin dataPin g initialState).1 ops).led, v ≤ 255 := by
  have h0 : goodLed initialState.led := ⟨rfl, by decide⟩
  have h1 : goodLed (init clockPin dataPin g initialState).1.led :=
    applyOp_goodLed (.opInit clockPin dataPin g) initialState h0
  have h2 := runOps_goodLed ops _ h1
  exact ⟨h2, fun v hv => patternSet_le (h2.2 v hv)⟩

/-! ### Claim C1: the frame emitted by `flush` -/

set_option maxRecDepth 100000 in
/-- Counterexample to claim C1 as stated: the claim counts "exactly 12
sixteen-bit words" yet enumerates thirteen (one command word, ten brightness
words, two padding words), and the code does send thirteen.  By claims C3
and C5 every `send16` word costs 16 data-pin writes and `latch` costs 9, so
a 12-word frame would write the data pin `12 * 16 + 9 = 201` times; at the
state produced by `init 1 2 false`, `flush` writes data pin 2 exactly
`217 = 13 * 16 + 9` times. -/
theorem claim1_counterexample :
    (writesTo 2 (flush (init 1 2 false initialState).1)).length = 217 ∧
    (217 : Nat) ≠ 12 * 16 + 9 := by
  constructor
  · decide
  · decide

set_option maxRecDepth 40000 in
/-- Claim C1 (amended: the frame is thirteen 16-bit words, not twelve): when
initialized, `flush` transmits via `send16` exactly the thirteen 16-bit
words of `frameWords` — the command word `0x0000`, the ten brightness words
masked to their low 8 bits, and two `0x0000` padding words — followed by the
latch sequence; under the reversed direction the ten data words appear in
exactly reversed order while the leading command word and trailing padding
words are unchanged. -/
theorem claim1_flush_frame (s : DriverState) (h : s.inited = true)
    (hlen : s.led.length = 10) :
    (∀ g : Bool,
      flush { s with reverse := g } =
        (frameWords { s with reverse := g }).flatMap (send16 s.clk s.dat) ++
          latch s.clk s.dat) ∧
    (∀ g : Bool, (frameWords { s with reverse := g }).length = 13) ∧
    frameWords { s with reverse := false } = 0 :: (dataWords s ++ [0, 0]) ∧
    frameWords { s with reverse := true } = 0 :: ((dataWords s).reverse ++ [0, 0]) := by
  rcases s with ⟨si, sc, sd, sr, led⟩
  simp only at h hlen
  subst h
  obtain ⟨a0, a1, a2, a3, a4, a5, a6, a7, a8, a9, hled⟩ := exists_len_ten led hlen
  subst hled
  refine ⟨?_, ?_, rfl, rfl⟩
  · intro g
    cases g <;> rfl
  · intro g
    cases g <;> rfl

/-- Witness for claim C1 (amended) at the state produced by `init 1 2 false`. -/
theorem claim1_witness :
    (init 1 2 false initialState).1.inited = true ∧
    (init 1 2 false initialState).1.led.length = 10 ∧
    ((∀ g : Bool,
        flush { (init 1 2 false initialState).1 with reverse := g } =
          (frameWords { (init 1 2 false initialState).1 with reverse := g }).flatMap
              (send16 (init 1 2 false initialState).1.clk
                (init 1 2 false initialState).1.dat) ++
            latch (init 1 2 false initialState).1.clk
              (init 1 2 false initialState).1.dat) ∧
     (∀ g : Bool,
        (frameWords { (init 1 2 false initialState).1 with reverse := g }).length = 13) ∧
     frameWords { (init 1 2 false initialState).1 with reverse := false } =
       0 :: (dataWords (init 1 2 false initialState).1 ++ [0, 0]) ∧
     frameWords { (init 1 2 false initialState).1 with reverse := true } =
       0 :: ((dataWords (init 1 2 false initialState).1).reverse ++ [0, 0])) :=
  ⟨rfl, rfl, claim1_flush_frame _ rfl rfl⟩

end groveLedBar
